import Mathlib

/-!
Verification development for the shared-laundry machine tracker.

The data model and operations below are a shallow embedding of the
repository's `services.py` and `handlers.py`.  Timestamps are modelled as
integers (seconds); a machine record is a single row of the `machines`
table, with the two joined user references inlined.  All readers are pure
functions from the registry (a list of rows) to values, so they perform no
write by construction.
-/

namespace LaundryBot

/-- A user row (`services.UserInfo`): only the fields the machine logic
reads are kept. -/
structure UserInfo where
  id : Nat
  username : String
  display_name : String
  house : String
deriving DecidableEq

/-- A machine row (`services.MachineState`); the stored record and the
parsed view share this shape, exactly as in the source where
`_parse_machines` rebuilds a `MachineState` from the raw row. -/
structure MachineState where
  id : String
  mtype : String
  level : String
  status : String
  start_time : Option Int
  end_time : Option Int
  current_user : Option UserInfo
  last_user : Option UserInfo
  last_ping : Option Int
deriving DecidableEq

/-- Audit rows appended by `services.log_audit_event`. -/
structure AuditRecord where
  event : String
  machine_id : String
  victim_id : Nat
  offender_id : Nat
deriving DecidableEq

/-- Complaint rows appended by `services.log_complaint`; `created_at` is
the insertion instant (DB default `now`). -/
structure Complaint where
  user_id : Nat
  machine_id : String
  reported_status : String
  created_at : Int
deriving DecidableEq

/-- Status derivation of `services._parse_machines` for one row: a stored
`Running` row whose `end_time` is strictly in the past is presented as
`Finished`; any other stored status is passed through. -/
def derived_status (r : MachineState) (now : Int) : String :=
  match r.end_time with
  | some e => if r.status = "Running" ∧ e < now then "Finished" else r.status
  | none => r.status

/-- Row parsing of `services._parse_machines`: only the presented status
is derived, every other field is passed through unchanged. -/
def parse_machine (r : MachineState) (now : Int) : MachineState :=
  { r with status := derived_status r now }

/-- `services._parse_machines` over a result set. -/
def _parse_machines (rows : List MachineState) (now : Int) : List MachineState :=
  rows.map (fun r => parse_machine r now)

/-- `services.get_machine`: select by id, parse, first row or `none`. -/
def get_machine (reg : List MachineState) (mid : String) (now : Int) : Option MachineState :=
  match reg.filter (fun r => r.id == mid) with
  | [] => none
  | r :: _ => some (parse_machine r now)

/-- `services.get_machines_by_level`: select by level, order by id, parse. -/
def get_machines_by_level (reg : List MachineState) (level : String) (now : Int) :
    List MachineState :=
  _parse_machines ((reg.filter (fun r => r.level == level)).mergeSort
    (fun a b => a.id ≤ b.id)) now

/-- `services.get_running_machines`: select rows whose STORED status is
`Running`, then parse. -/
def get_running_machines (reg : List MachineState) (now : Int) : List MachineState :=
  _parse_machines (reg.filter (fun r => r.status == "Running")) now

/-- `services.update_machine_status` restricted to one row: sets the given
status, `start_time := now`, the new `end_time`, both owner references to
the acting user, and clears `last_ping`.  (The usage-event analytics log
is out of scope.) -/
def update_machine_status (r : MachineState) (status : String) (now end_t : Int)
    (u : UserInfo) : MachineState :=
  { r with status := status, start_time := some now, end_time := some end_t,
           current_user := some u, last_user := some u, last_ping := none }

/-- `services.reset_machine_status`: force-stop / mark finished. -/
def reset_machine_status (r : MachineState) : MachineState :=
  { r with status := "Finished", current_user := none }

/-- `services.make_machine_available`: collect. -/
def make_machine_available (r : MachineState) : MachineState :=
  { r with status := "Available", current_user := none, start_time := none,
           end_time := none, last_ping := none }

/-- `services.register_ping`: stamp `last_ping := now`. -/
def register_ping (r : MachineState) (now : Int) : MachineState :=
  { r with last_ping := some now }

/-- `services.can_submit_complaint`: at most one complaint per
(user, machine) pair per rolling hour, via `created_at >= now - 1h`. -/
def can_submit_complaint (uid : Nat) (mid : String) (now : Int)
    (log : List Complaint) : Bool :=
  (log.filter (fun c =>
    c.user_id == uid && c.machine_id == mid && decide (now - 3600 ≤ c.created_at))).length == 0

/-- Machine rows reachable from the provisioned `Available` row through the
write operations `services.py` actually performs (`update_machine_status`
is only ever invoked with status `"Running"`, from the start-cycle
handler). -/
inductive Reachable : MachineState → Prop where
  | init (id mtype level : String) :
      Reachable ⟨id, mtype, level, "Available", none, none, none, none, none⟩
  | start (r : MachineState) (now end_t : Int) (u : UserInfo) :
      Reachable r → Reachable (update_machine_status r "Running" now end_t u)
  | force (r : MachineState) :
      Reachable r → Reachable (reset_machine_status r)
  | collect (r : MachineState) :
      Reachable r → Reachable (make_machine_available r)
  | ping (r : MachineState) (now : Int) :
      Reachable r → Reachable (register_ping r now)

/-- A scheduled job-queue entry (`job_queue.run_once(...)` in
`handlers.py`): `kind` is `"done"` or `"5min"`, `name` the cancellation
key, `delay` the scheduled delay in seconds. -/
structure Timer where
  name : String
  kind : String
  mid : String
  chat_id : Nat
  delay : Int
deriving DecidableEq

/-- Loop body of `handlers.restore_timers` for one machine returned by
`get_running_machines`: rows missing `end_time` or `current_user` are
skipped; a future `end_time` gets a `done` timer at the deadline and,
when more than 300 s remain, a `5min` warning 300 s earlier; a passed
`end_time` gets a `done` timer with a 1 s delay. -/
def restore_machine_timers (now : Int) (m : MachineState) : List Timer :=
  match m.end_time, m.current_user with
  | some e, some u =>
    let delay := e - now
    if 0 < delay then
      if 300 < delay then
        [⟨"done_" ++ m.id, "done", m.id, u.id, delay⟩,
         ⟨"5min_" ++ m.id, "5min", m.id, u.id, delay - 300⟩]
      else
        [⟨"done_" ++ m.id, "done", m.id, u.id, delay⟩]
    else
      [⟨"done_" ++ m.id, "done", m.id, u.id, 1⟩]
  | _, _ => []

/-- `handlers.restore_timers`: rehydrate timers for every machine the
registry stores as `Running`. -/
def restore_timers (reg : List MachineState) (now : Int) : List Timer :=
  (get_running_machines reg now).flatMap (fun m => restore_machine_timers now m)

/-- `handlers.format_time_delta`: whole minutes (truncated) between `now`
and the given instant, on whichever side of it `now` falls. -/
def format_time_delta (end_t : Option Int) (now : Int) : Int :=
  match end_t with
  | none => 0
  | some e => (if e < now then now - e else e - now) / 60

/-- Outcome surfaced to the requesting user by a `button_handler` branch. -/
inductive HandlerResult where
  | timer_started (mid : String) (mins : Int)
  | collected (mid : String)
  | ping_rejected (remaining : Int)
  | ping_sent
  | ping_failed
  | ping_no_history
  | complaint_rejected
  | complaint_logged
deriving DecidableEq

/-- The ping button state on the finished-machine panel
(`handlers.show_machine_control_panel`, lines 463–475). -/
inductive PingButton where
  | active (mid : String)
  | cooldown_wait (remaining : Int)
deriving DecidableEq

/-- The non-running control panel: whether a ping button is shown (and in
which state) and whether the collect button is shown. -/
structure IdlePanel where
  ping_button : Option PingButton
  collect_button : Bool
deriving DecidableEq

/-- Result of `handlers.show_machine_control_panel`: the running machine
seen by its owner, the conflict panel seen by anyone else, or the idle
panel offering duration buttons (plus ping/collect where applicable). -/
inductive Panel where
  | not_found
  | own_running (mid : String) (mins_left : Int)
  | conflict (owner_name : String) (mins_left : Int)
  | idle (p : IdlePanel)
deriving DecidableEq

/-- The duration-selection branch of `show_machine_control_panel` (taken
whenever the machine is not Running-with-time-left): the ping button is
shown only for a `Finished` machine with an `end_time` and a recorded
last user, in cooldown state when the last ping is less than 200 s old;
the collect button is shown only to the last user of a `Finished`
machine. -/
def idle_panel (m : MachineState) (now : Int) (viewer : Nat) : Panel :=
  let ping_button : Option PingButton :=
    if m.status = "Finished" then
      match m.end_time with
      | some _ =>
        match m.last_user with
        | some _ =>
          match m.last_ping with
          | some t =>
            if now - t < 200 then some (.cooldown_wait (200 - (now - t)))
            else some (.active m.id)
          | none => some (.active m.id)
        | none => none
      | none => none
    else none
  let collect_button : Bool :=
    m.status == "Finished" &&
      (match m.last_user with
       | some u => u.id == viewer
       | none => false)
  .idle ⟨ping_button, collect_button⟩

/-- `handlers.show_machine_control_panel`: fetch and parse the machine;
if it is `Running` with `end_time` strictly in the future, show the
owner panel or the conflict panel (owner display name, whole minutes
left); otherwise fall through to the idle panel.  The function reads the
registry and performs no write. -/
def show_machine_control_panel (reg : List MachineState) (mid : String) (now : Int)
    (viewer : Nat) : Panel :=
  match get_machine reg mid now with
  | none => .not_found
  | some m =>
    if m.status = "Running" then
      match m.end_time with
      | some e =>
        if now < e then
          let mins := format_time_delta m.end_time now
          match m.current_user with
          | some u =>
            if u.id = viewer then .own_running m.id mins
            else .conflict u.display_name mins
          | none => .conflict "Unknown" mins
        else idle_panel m now viewer
      | none => idle_panel m now viewer
    else idle_panel m now viewer

/-- The `set_` branch of `handlers.button_handler` (StartCycle): writes the
row Running with `end_time = now + mins·60` and schedules the `done`
timer, plus the `5min` warning when the duration exceeds 5 minutes.  The
branch performs no status check on the existing row. -/
def set_timer_handler (r : MachineState) (now : Int) (mins : Int) (u : UserInfo) :
    MachineState × List Timer :=
  let r2 := update_machine_status r "Running" now (now + mins * 60) u
  let timers :=
    if 5 < mins then
      [⟨"done_" ++ r.id, "done", r.id, u.id, mins * 60⟩,
       ⟨"5min_" ++ r.id, "5min", r.id, u.id, (mins - 5) * 60⟩]
    else
      [⟨"done_" ++ r.id, "done", r.id, u.id, mins * 60⟩]
  (r2, timers)

/-- The `force_` branch of `handlers.button_handler`: if the parsed row
has a current owner, append the audit record, attempt to notify the
victim (delivery result `notify_ok` is swallowed), and cancel the two
timer keys; in every case apply `reset_machine_status`.  Returns the new
row, the audit records appended, the timer keys cancelled, and the
notification attempt `(victim, delivered)`. -/
def force_stop_handler (r : MachineState) (now : Int) (actor : Nat) (notify_ok : Bool) :
    MachineState × List AuditRecord × List String × Option (Nat × Bool) :=
  match (parse_machine r now).current_user with
  | some cu =>
    (reset_machine_status r, [⟨"FORCE_STOP", r.id, cu.id, actor⟩],
     ["done_" ++ r.id, "5min_" ++ r.id], some (cu.id, notify_ok))
  | none => (reset_machine_status r, [], [], none)

/-- The `collect_` branch of `handlers.button_handler`: unconditionally
applies `make_machine_available` and reports success; the acting user is
never consulted. -/
def collect_handler (r : MachineState) (actor : Nat) : MachineState × HandlerResult :=
  (make_machine_available r, .collected r.id)

/-- Send part of the `ping_` branch: with a recorded last user, a
delivered notification registers the ping (starting the cooldown); a
failed delivery leaves the row untouched. -/
def ping_send (r : MachineState) (now : Int) (notify_ok : Bool) :
    MachineState × HandlerResult :=
  match (parse_machine r now).last_user with
  | some _ =>
    if notify_ok then (register_ping r now, .ping_sent)
    else (r, .ping_failed)
  | none => (r, .ping_no_history)

/-- The `ping_` branch of `handlers.button_handler`: a last ping less than
200 s old rejects with the remaining seconds and no state change;
otherwise the send part runs. -/
def ping_handler (r : MachineState) (now : Int) (notify_ok : Bool) :
    MachineState × HandlerResult :=
  match (parse_machine r now).last_ping with
  | some t =>
    if now - t < 200 then (r, .ping_rejected (200 - (now - t)))
    else ping_send r now notify_ok
  | none => ping_send r now notify_ok

/-- The `complain_confirm_` branch of `handlers.button_handler`: re-check
the rate limit; inside the window reject without a record, otherwise
insert the complaint with the machine's presented status (or
`"Unknown"`). -/
def complain_confirm_handler (reg : List MachineState) (uid : Nat) (mid : String)
    (now : Int) (log : List Complaint) : List Complaint × HandlerResult :=
  if can_submit_complaint uid mid now log then
    let reported :=
      match get_machine reg mid now with
      | some m => m.status
      | none => "Unknown"
    (⟨uid, mid, reported, now⟩ :: log, .complaint_logged)
  else
    (log, .complaint_rejected)

/-- Stored-state invariant maintained by the registry writes: the stored
status is `Running` exactly when a current owner is recorded, and a stored
`Running` row always carries an `end_time`. -/
theorem reachable_invariant (r : MachineState) (h : Reachable r) :
    (r.status = "Running" ↔ r.current_user.isSome) ∧
    (r.status = "Running" → r.end_time.isSome) := by
  induction h with
  | init id mtype level => simp
  | start r now end_t u _ _ => simp [update_machine_status]
  | force r _ _ => simp [reset_machine_status]
  | collect r _ _ => simp [make_machine_available]
  | ping r now _ ih => simpa [register_ping] using ih

/-- A presented status of `Running` can only come from a stored status of
`Running` (the projection only ever rewrites `Running` to `Finished`). -/
theorem derived_status_running (r : MachineState) (now : Int)
    (h : derived_status r now = "Running") : r.status = "Running" := by
  unfold derived_status at h
  split at h
  · split at h
    · exact absurd h (by decide)
    · exact h
  · exact h

-- Sample users and rows used to instantiate the theorems below.

def user_a : UserInfo := ⟨1, "alice", "Alice", "Zenith"⟩

def user_b : UserInfo := ⟨2, "bob", "Bob", "Nous"⟩

/-- A freshly provisioned machine row. -/
def blank_row : MachineState :=
  ⟨"9_washer_1", "Washer", "9", "Available", none, none, none, none, none⟩

/-- The row after `StartCycle` by `user_a` at time 0 with `end_time` 100. -/
def c1_row : MachineState := update_machine_status blank_row "Running" 0 100 user_a

/-- `c1_row` after a force stop / natural finish: `Finished`, owner
cleared, `last_user` still `user_a`. -/
def c5_row : MachineState := reset_machine_status c1_row

/-- C6: a stored `Running` row whose `cycleEnd` lies strictly in the past
is presented as `Finished` by the row projection, and every reader
(single-machine fetch, per-level listing, running listing) returns exactly
the projection of a stored row — the readers are pure functions of the
registry, so no write is performed. -/
theorem c6_lazy_finished_readers :
    (∀ (r : MachineState) (now e : Int), r.status = "Running" → r.end_time = some e →
      e < now → (parse_machine r now).status = "Finished") ∧
    (∀ (reg : List MachineState) (mid : String) (now : Int) (m : MachineState),
      get_machine reg mid now = some m → ∃ r ∈ reg, m = parse_machine r now) ∧
    (∀ (reg : List MachineState) (level : String) (now : Int) (m : MachineState),
      m ∈ get_machines_by_level reg level now → ∃ r ∈ reg, m = parse_machine r now) ∧
    (∀ (reg : List MachineState) (now : Int) (m : MachineState),
      m ∈ get_running_machines reg now → ∃ r ∈ reg, m = parse_machine r now) := by
  refine ⟨?_, ?_, ?_, ?_⟩
  · intro r now e hs he hlt
    show derived_status r now = "Finished"
    unfold derived_status
    rw [he]
    exact if_pos ⟨hs, hlt⟩
  · intro reg mid now m h
    unfold get_machine at h
    split at h
    · exact absurd h (by simp)
    · next r rest hf =>
      have hr : r ∈ reg.filter (fun r => r.id == mid) := hf ▸ List.mem_cons_self r rest
      exact ⟨r, List.mem_of_mem_filter hr, by injection h with h2; exact h2.symm⟩
  · intro reg level now m h
    unfold get_machines_by_level _parse_machines at h
    obtain ⟨r, hr, he⟩ := List.mem_map.mp h
    refine ⟨r, ?_, he.symm⟩
    have := List.mem_mergeSort.mp hr
    exact List.mem_of_mem_filter this
  · intro reg now m h
    unfold get_running_machines _parse_machines at h
    obtain ⟨r, hr, he⟩ := List.mem_map.mp h
    exact ⟨r, List.mem_of_mem_filter hr, he.symm⟩

/-- Witness for C6 at a concrete input: a stored-Running row with
`end_time = 100` read at `now = 200` is presented as `Finished`, and the
single-machine reader returns the projection of the stored row. -/
theorem c6_witness :
    (parse_machine c1_row 200).status = "Finished" ∧
    (∃ r ∈ [c1_row], parse_machine c1_row 200 = parse_machine r 200) :=
  ⟨c6_lazy_finished_readers.1 c1_row 200 100 rfl rfl (by decide),
   c6_lazy_finished_readers.2.1 [c1_row] "9_washer_1" 200 (parse_machine c1_row 200)
     (by decide)⟩

/-- C1 (amended): for every registry state reachable through the code's
writes, a machine presented as `Running` always carries a current owner,
and a machine whose STORED status is not `Running` never does.  (The
claim's other direction fails for the presented status: a stored-Running
row past its `cycleEnd` is presented as `Finished` while `current_user`
is still set, see the counterexample.) -/
theorem c1_owner_invariant_amended (r : MachineState) (now : Int) (h : Reachable r) :
    ((parse_machine r now).status = "Running" → r.current_user.isSome) ∧
    (r.status ≠ "Running" → r.current_user = none) := by
  obtain ⟨hiff, _⟩ := reachable_invariant r h
  constructor
  · intro hp
    exact hiff.mp (derived_status_running r now hp)
  · intro hs
    cases hcu : r.current_user with
    | none => rfl
    | some u => exact absurd (hiff.mpr (by simp [hcu])) hs

/-- Witness for C1 at a concrete input: the running row observed before
its deadline is presented `Running` and carries its owner. -/
theorem c1_witness :
    ((parse_machine c1_row 50).status = "Running" → c1_row.current_user.isSome) ∧
    (c1_row.status ≠ "Running" → c1_row.current_user = none) :=
  c1_owner_invariant_amended c1_row 50
    (Reachable.start blank_row 0 100 user_a (Reachable.init "9_washer_1" "Washer" "9"))

/-- Counterexample to C1 as stated: the reachable row written by
`StartCycle(user_a, end 100)` observed at `now = 200` is presented with
status `Finished` (not `Running`) while `current_user` is still
`user_a` — the presented-status invariant's absence direction fails. -/
theorem c1_counterexample :
    Reachable c1_row ∧ (parse_machine c1_row 200).status ≠ "Running" ∧
    (parse_machine c1_row 200).current_user = some user_a := by
  refine ⟨Reachable.start blank_row 0 100 user_a
    (Reachable.init "9_washer_1" "Washer" "9"), ?_, ?_⟩ <;> decide

/-- The timers the claim says a Running machine's `cycleEnd` implies,
written from the claim's words (C2): a `done` timer at `cycleEnd` if it is
in the future plus a `warning` 5 minutes earlier iff more than 5 minutes
remain, and an immediate (minimal-delay) `done` timer if `cycleEnd` has
already passed. -/
def claim_implied_timers (mid : String) (chat : Nat) (cycle_end now : Int) : List Timer :=
  if now < cycle_end then
    if 300 < cycle_end - now then
      [⟨"done_" ++ mid, "done", mid, chat, cycle_end - now⟩,
       ⟨"5min_" ++ mid, "5min", mid, chat, cycle_end - now - 300⟩]
    else
      [⟨"done_" ++ mid, "done", mid, chat, cycle_end - now⟩]
  else
    [⟨"done_" ++ mid, "done", mid, chat, 1⟩]

/-- On a row with both fields present the restore loop body produces
exactly the timers the claim derives from `cycleEnd`. -/
theorem restore_one_eq (r : MachineState) (now e : Int) (u : UserInfo)
    (he : r.end_time = some e) (hu : r.current_user = some u) :
    restore_machine_timers now r = claim_implied_timers r.id u.id e now := by
  unfold restore_machine_timers claim_implied_timers
  rw [he, hu]
  dsimp only
  by_cases h1 : 0 < e - now
  · rw [if_pos h1, if_pos (show now < e by omega)]
  · rw [if_neg h1, if_neg (show ¬ now < e by omega)]

/-- The restore loop body emits exactly one `done` timer, keyed by the
machine id, for a row with both fields present. -/
theorem restore_one_done (r : MachineState) (now e : Int) (u : UserInfo)
    (he : r.end_time = some e) (hu : r.current_user = some u) :
    ((restore_machine_timers now r).filter (fun t => t.kind == "done")).map
      (fun t => t.mid) = [r.id] := by
  unfold restore_machine_timers
  rw [he, hu]
  dsimp only
  by_cases h1 : 0 < e - now
  · rw [if_pos h1]
    by_cases h2 : 300 < e - now
    · rw [if_pos h2]; simp
    · rw [if_neg h2]; simp
  · rw [if_neg h1]; simp

/-- Core of the rehydration round-trip, over the filtered Running rows. -/
theorem c2_core (now : Int) (L : List MachineState)
    (h : ∀ r ∈ L, Reachable r ∧ r.status = "Running") :
    L.flatMap (fun r => restore_machine_timers now r)
      = L.flatMap (fun r =>
          match r.end_time, r.current_user with
          | some e, some u => claim_implied_timers r.id u.id e now
          | _, _ => []) ∧
    ((L.flatMap (fun r => restore_machine_timers now r)).filter
        (fun t => t.kind == "done")).map (fun t => t.mid)
      = L.map (fun r => r.id) := by
  induction L with
  | nil => simp
  | cons r L ih =>
    obtain ⟨hr, hs⟩ := h r (List.mem_cons_self r L)
    obtain ⟨hiff, hend⟩ := reachable_invariant r hr
    obtain ⟨u, hu⟩ := Option.isSome_iff_exists.mp (hiff.mp hs)
    obtain ⟨e, he⟩ := Option.isSome_iff_exists.mp (hend hs)
    have ihh := ih (fun r2 h2 => h r2 (List.mem_cons_of_mem _ h2))
    constructor
    · simp only [List.flatMap_cons]
      rw [restore_one_eq r now e u he hu, he, hu, ihh.1]
    · simp only [List.flatMap_cons, List.filter_append, List.map_append]
      rw [restore_one_done r now e u he hu, ihh.2]
      rfl

/-- C2: on a registry of reachable rows with distinct ids, Rehydrate
produces, for each machine the registry stores as `Running`, exactly the
timer set the claim derives from its `cycleEnd` (future deadline: `done`
at the deadline plus `warning` iff more than 300 s remain; passed
deadline: immediate `done`), and the pending `done` timers are keyed by
exactly the stored-Running machine ids, without duplicate or omission. -/
theorem c2_rehydrate_round_trip (reg : List MachineState) (now : Int)
    (hreach : ∀ r ∈ reg, Reachable r)
    (hids : (reg.map (fun r => r.id)).Nodup) :
    restore_timers reg now
      = (reg.filter (fun r => r.status == "Running")).flatMap
          (fun r =>
            match r.end_time, r.current_user with
            | some e, some u => claim_implied_timers r.id u.id e now
            | _, _ => []) ∧
    ((restore_timers reg now).filter (fun t => t.kind == "done")).map (fun t => t.mid)
      = (reg.filter (fun r => r.status == "Running")).map (fun r => r.id) ∧
    (((restore_timers reg now).filter (fun t => t.kind == "done")).map
        (fun t => t.mid)).Nodup := by
  have hL : ∀ r ∈ reg.filter (fun r => r.status == "Running"),
      Reachable r ∧ r.status = "Running" := by
    intro r hr
    refine ⟨hreach r (List.mem_of_mem_filter hr), ?_⟩
    simpa using List.of_mem_filter hr
  have hrt : restore_timers reg now
      = (reg.filter (fun r => r.status == "Running")).flatMap
          (fun r => restore_machine_timers now r) := by
    unfold restore_timers get_running_machines _parse_machines
    rw [List.flatMap_map]
    rfl
  obtain ⟨h1, h2⟩ := c2_core now _ hL
  refine ⟨hrt ▸ h1, hrt ▸ h2, ?_⟩
  rw [hrt, h2]
  exact hids.sublist ((List.filter_sublist reg).map _)

/-- A second machine row, started by `user_b` with `end_time` 400. -/
def c2_row2 : MachineState :=
  update_machine_status ⟨"9_washer_2", "Washer", "9", "Available", none, none, none, none, none⟩
    "Running" 0 400 user_b

/-- Witness for C2 at a concrete input: two Running rows read at
`now = 200` (one past its deadline, one 200 s before it) yield exactly
one `done` timer per machine, keyed by the two ids, with no duplicate. -/
theorem c2_witness :
    ((restore_timers [c1_row, c2_row2] 200).filter (fun t => t.kind == "done")).map
        (fun t => t.mid) = ["9_washer_1", "9_washer_2"] ∧
    (((restore_timers [c1_row, c2_row2] 200).filter (fun t => t.kind == "done")).map
        (fun t => t.mid)).Nodup := by
  have hre : ∀ r ∈ [c1_row, c2_row2], Reachable r := by
    intro r hr
    simp only [List.mem_cons, List.not_mem_nil, or_false] at hr
    rcases hr with h | h <;> subst h
    · exact Reachable.start _ 0 100 user_a (Reachable.init "9_washer_1" "Washer" "9")
    · exact Reachable.start _ 0 400 user_b (Reachable.init "9_washer_2" "Washer" "9")
  have h := c2_rehydrate_round_trip [c1_row, c2_row2] 200 hre (by decide)
  exact ⟨h.2.1.trans (by decide), h.2.2⟩

/-- C3 (amended): selecting a machine that is Running with `cycleEnd`
STRICTLY in the future, as someone other than the current owner, surfaces
the conflict panel — not an error — carrying the current owner's display
name and the truncated minutes remaining; the panel function performs no
registry write (it returns only a `Panel`).  The strictness is forced by
the counterexample: at the instant `cycleEnd = now` the machine is still
presented as Running but the duration-selection panel is shown. -/
theorem c3_conflict_on_running (reg : List MachineState) (mid : String) (now : Int)
    (viewer : Nat) (m : MachineState) (e : Int) (u : UserInfo)
    (hm : get_machine reg mid now = some m)
    (hs : m.status = "Running") (he : m.end_time = some e) (hlt : now < e)
    (hu : m.current_user = some u) (hv : u.id ≠ viewer) :
    show_machine_control_panel reg mid now viewer
      = .conflict u.display_name ((e - now) / 60) := by
  unfold show_machine_control_panel
  rw [hm]
  dsimp only
  rw [if_pos hs, he]
  dsimp only
  rw [if_pos hlt, hu]
  dsimp only
  rw [if_neg hv]
  unfold format_time_delta
  dsimp only
  rw [if_neg (show ¬ e < now by omega)]

/-- Witness for C3 at a concrete input: user_b selecting user_a's running
machine 60 s before the deadline sees the conflict panel with the owner's
name and 1 minute left. -/
theorem c3_witness :
    show_machine_control_panel [c1_row] "9_washer_1" 40 2 = .conflict "Alice" 1 :=
  c3_conflict_on_running [c1_row] "9_washer_1" 40 2 (parse_machine c1_row 40) 100 user_a
    (by decide) (by decide) rfl (by decide) rfl (by decide)

/-- Counterexample to C3 as stated: at the instant `now = cycleEnd` the
machine is still PRESENTED as Running (the projection rewrites only a
strictly-past deadline), yet the selection shows the duration-selection
panel instead of a conflict, and a subsequent `set_` StartCycle by
user_b overwrites the state — not rejected, state changed. -/
theorem c3_counterexample :
    (parse_machine c1_row 100).status = "Running" ∧
    (parse_machine c1_row 100).current_user = some user_a ∧
    show_machine_control_panel [c1_row] "9_washer_1" 100 2 = .idle ⟨none, false⟩ ∧
    (set_timer_handler c1_row 100 33 user_b).1.current_user = some user_b := by
  refine ⟨?_, ?_, ?_, ?_⟩ <;> decide

/-- C4: a ForceStop by another actor on a Running machine moves it to
`Finished` immediately — owner cleared, every other stored field kept —
appends exactly the audit record (FORCE_STOP, machine, victim = former
owner, offender = actor), cancels the machine's `done` and `5min` timer
keys, and attempts to notify the former owner; the resulting state is the
same whether or not the notification is delivered.  On a reachable
`Finished` row the handler is a complete no-op (nothing to stop), and the
conflict panel that offers the ForceStop button only ever arises from a
machine presented as Running. -/
theorem c4_force_stop (r : MachineState) (now : Int) (actor : Nat) (victim : UserInfo)
    (hs : r.status = "Running") (hcu : r.current_user = some victim)
    (hne : victim.id ≠ actor) (notify_ok : Bool) :
    (force_stop_handler r now actor notify_ok).1.status = "Finished" ∧
    (force_stop_handler r now actor notify_ok).1.current_user = none ∧
    (force_stop_handler r now actor notify_ok).1.last_user = r.last_user ∧
    (force_stop_handler r now actor notify_ok).1.end_time = r.end_time ∧
    (force_stop_handler r now actor notify_ok).1.start_time = r.start_time ∧
    (force_stop_handler r now actor notify_ok).1.last_ping = r.last_ping ∧
    (force_stop_handler r now actor notify_ok).2.1
      = [⟨"FORCE_STOP", r.id, victim.id, actor⟩] ∧
    (force_stop_handler r now actor notify_ok).2.2.1
      = ["done_" ++ r.id, "5min_" ++ r.id] ∧
    (force_stop_handler r now actor notify_ok).2.2.2 = some (victim.id, notify_ok) ∧
    (force_stop_handler r now actor true).1 = (force_stop_handler r now actor false).1 ∧
    (∀ r2 : MachineState, Reachable r2 → r2.status = "Finished" →
      force_stop_handler r2 now actor notify_ok = (r2, [], [], none)) ∧
    (∀ (reg : List MachineState) (mid : String) (v : Nat) (nm : String) (mins : Int),
      show_machine_control_panel reg mid now v = .conflict nm mins →
      ∃ m, get_machine reg mid now = some m ∧ m.status = "Running") := by
  have hfs : ∀ ok : Bool, force_stop_handler r now actor ok
      = (reset_machine_status r, [⟨"FORCE_STOP", r.id, victim.id, actor⟩],
         ["done_" ++ r.id, "5min_" ++ r.id], some (victim.id, ok)) := by
    intro ok
    unfold force_stop_handler
    rw [show (parse_machine r now).current_user = some victim from hcu]
  refine ⟨?_, ?_, ?_, ?_, ?_, ?_, ?_, ?_, ?_, ?_, ?_, ?_⟩
  · rw [hfs notify_ok]; rfl
  · rw [hfs notify_ok]; rfl
  · rw [hfs notify_ok]; rfl
  · rw [hfs notify_ok]; rfl
  · rw [hfs notify_ok]; rfl
  · rw [hfs notify_ok]; rfl
  · rw [hfs notify_ok]
  · rw [hfs notify_ok]
  · rw [hfs notify_ok]
  · rw [hfs true, hfs false]
  · intro r2 h2 hs2
    have hno : r2.current_user = none := by
      obtain ⟨hiff, _⟩ := reachable_invariant r2 h2
      cases hcu2 : r2.current_user with
      | none => rfl
      | some u =>
        exact absurd (hiff.mpr (by simp [hcu2])) (by simp [hs2])
    have hno2 : (parse_machine r2 now).current_user = none := hno
    unfold force_stop_handler
    rw [hno2]
    have hre : reset_machine_status r2 = r2 := by
      unfold reset_machine_status
      rw [← hs2, ← hno]
    rw [hre]
  · intro reg mid v nm mins h
    unfold show_machine_control_panel at h
    cases hg : get_machine reg mid now with
    | none =>
      rw [hg] at h
      dsimp only at h
      exact absurd h (by simp)
    | some m =>
      rw [hg] at h
      dsimp only at h
      refine ⟨m, rfl, ?_⟩
      by_cases hsm : m.status = "Running"
      · exact hsm
      · rw [if_neg hsm] at h
        exact absurd h (by simp [idle_panel])

/-- Witness for C4 at a concrete input: user_b force-stops user_a's
running machine at `now = 50`; delivery of the notification fails and the
state transition still happens. -/
theorem c4_witness :
    (force_stop_handler c1_row 50 2 false).1.status = "Finished" ∧
    (force_stop_handler c1_row 50 2 false).1.current_user = none ∧
    (force_stop_handler c1_row 50 2 false).1.last_user = c1_row.last_user ∧
    (force_stop_handler c1_row 50 2 false).1.end_time = c1_row.end_time ∧
    (force_stop_handler c1_row 50 2 false).1.start_time = c1_row.start_time ∧
    (force_stop_handler c1_row 50 2 false).1.last_ping = c1_row.last_ping ∧
    (force_stop_handler c1_row 50 2 false).2.1
      = [⟨"FORCE_STOP", c1_row.id, user_a.id, 2⟩] ∧
    (force_stop_handler c1_row 50 2 false).2.2.1
      = ["done_" ++ c1_row.id, "5min_" ++ c1_row.id] ∧
    (force_stop_handler c1_row 50 2 false).2.2.2 = some (user_a.id, false) ∧
    (force_stop_handler c1_row 50 2 true).1 = (force_stop_handler c1_row 50 2 false).1 ∧
    (∀ r2 : MachineState, Reachable r2 → r2.status = "Finished" →
      force_stop_handler r2 50 2 false = (r2, [], [], none)) ∧
    (∀ (reg : List MachineState) (mid : String) (v : Nat) (nm : String) (mins : Int),
      show_machine_control_panel reg mid 50 v = .conflict nm mins →
      ∃ m, get_machine reg mid 50 = some m ∧ m.status = "Running") :=
  c4_force_stop c1_row 50 2 user_a rfl rfl (by decide) false

/-- C5 (amended): a Collect request sets the machine `Available`, clears
`cycleStart`, `cycleEnd`, `lastPingAt` and the owner, and retains
`lastOwner` until the next StartCycle overwrites it; the
`actor = lastOwner` guard is enforced only where the collect button is
issued — the control panel shows it exactly to the last owner of a
`Finished` machine — and is not re-checked by the collect handler
itself. -/
theorem c5_collect_amended :
    (∀ (r : MachineState) (actor : Nat),
      (collect_handler r actor).1.status = "Available" ∧
      (collect_handler r actor).1.start_time = none ∧
      (collect_handler r actor).1.end_time = none ∧
      (collect_handler r actor).1.last_ping = none ∧
      (collect_handler r actor).1.current_user = none ∧
      (collect_handler r actor).1.last_user = r.last_user ∧
      (collect_handler r actor).2 = .collected r.id) ∧
    (∀ (r : MachineState) (s : String) (now end_t : Int) (u : UserInfo),
      (update_machine_status r s now end_t u).last_user = some u) ∧
    (∀ (m : MachineState) (now : Int) (viewer : Nat) (p : IdlePanel),
      idle_panel m now viewer = .idle p →
      (p.collect_button = true ↔
        m.status = "Finished" ∧ ∃ u, m.last_user = some u ∧ u.id = viewer)) := by
  refine ⟨?_, ?_, ?_⟩
  · intro r actor
    exact ⟨rfl, rfl, rfl, rfl, rfl, rfl, rfl⟩
  · intro r s now end_t u
    rfl
  · intro m now viewer p h
    unfold idle_panel at h
    have hp : p = ⟨_, _⟩ := (Panel.idle.injEq _ _).mp h.symm
    subst hp
    cases hlu : m.last_user with
    | none => simp [hlu]
    | some u => simp [hlu]

/-- Witness for C5 at a concrete input: collecting the finished machine
makes it available, clears the cycle fields and keeps `last_user`; on its
panel the collect button is shown to user_a (the last owner) and the
button condition is exactly the lastOwner test. -/
theorem c5_witness :
    ((collect_handler c5_row 1).1.status = "Available" ∧
     (collect_handler c5_row 1).1.start_time = none ∧
     (collect_handler c5_row 1).1.end_time = none ∧
     (collect_handler c5_row 1).1.last_ping = none ∧
     (collect_handler c5_row 1).1.current_user = none ∧
     (collect_handler c5_row 1).1.last_user = c5_row.last_user ∧
     (collect_handler c5_row 1).2 = .collected c5_row.id) ∧
    (IdlePanel.collect_button ⟨some (.active "9_washer_1"), true⟩ = true ↔
      c5_row.status = "Finished" ∧ ∃ u, c5_row.last_user = some u ∧ u.id = 1) :=
  ⟨c5_collect_amended.1 c5_row 1,
   c5_collect_amended.2.2 c5_row 300 1 ⟨some (.active "9_washer_1"), true⟩ (by decide)⟩

/-- Counterexample to C5 as stated: on the finished machine whose last
owner is user_a (id 1), a Collect request by actor 2 is not rejected — it
succeeds and flips the machine to `Available` — so "Collect succeeds only
when the actor equals lastOwner" fails at the handler. -/
theorem c5_counterexample :
    c5_row.status = "Finished" ∧ c5_row.last_user = some user_a ∧ user_a.id ≠ 2 ∧
    (collect_handler c5_row 2).2 = .collected "9_washer_1" ∧
    (collect_handler c5_row 2).1.status = "Available" := by
  refine ⟨?_, ?_, ?_, ?_, ?_⟩ <;> decide

/-- C7 (amended): ping is offered on the panel of a Finished machine with
a recorded last user to ANY viewer — including the last owner — and is
throttled per machine through `lastPingAt`: an attempt strictly inside
the 200 s window is rejected with the remaining seconds and no state
change; an attempt at or after 200 s with a recorded last user goes
through, and a delivered ping stamps `lastPingAt := now`, starting the
next window. -/
theorem c7_ping_throttle :
    (∀ (r : MachineState) (now : Int) (ok : Bool) (t : Int),
      r.last_ping = some t → now - t < 200 →
      ping_handler r now ok = (r, .ping_rejected (200 - (now - t)))) ∧
    (∀ (r : MachineState) (now t : Int) (u : UserInfo),
      r.last_ping = some t → 200 ≤ now - t → r.last_user = some u →
      ping_handler r now true = (register_ping r now, .ping_sent)) ∧
    (∀ (r : MachineState) (now k : Int) (ok : Bool),
      0 ≤ k → k < 200 →
      (ping_handler (register_ping r now) (now + k) ok).2
        = .ping_rejected (200 - k)) ∧
    (∀ (m : MachineState) (now : Int) (viewer : Nat) (u : UserInfo),
      m.status = "Finished" → m.end_time.isSome → m.last_user = some u →
      m.last_ping = none →
      idle_panel m now viewer = .idle ⟨some (.active m.id),
        decide (m.status = "Finished") && (u.id == viewer)⟩) := by
  refine ⟨?_, ?_, ?_, ?_⟩
  · intro r now ok t ht hin
    unfold ping_handler
    rw [show (parse_machine r now).last_ping = some t from ht]
    dsimp only
    rw [if_pos hin]
  · intro r now t u ht hout hu
    unfold ping_handler
    rw [show (parse_machine r now).last_ping = some t from ht]
    dsimp only
    rw [if_neg (show ¬ now - t < 200 by omega)]
    unfold ping_send
    rw [show (parse_machine r now).last_user = some u from hu]
    dsimp only
    rw [if_pos rfl]
  · intro r now k ok h0 h200
    unfold ping_handler
    rw [show (parse_machine (register_ping r now) (now + k)).last_ping = some now from rfl]
    dsimp only
    rw [if_pos (show now + k - now < 200 by omega)]
    have : now + k - now = k := by omega
    rw [this]
  · intro m now viewer u hs he hu hp
    unfold idle_panel
    rw [if_pos hs, hu, hp]
    obtain ⟨e, he2⟩ := Option.isSome_iff_exists.mp he
    rw [he2]
    simp [hs]

/-- Witness for C7 at a concrete input: with a ping registered at t = 0,
an attempt at t = 100 is rejected with 100 s remaining and the row is
unchanged; an attempt at t = 201 goes through and stamps the new
cooldown. -/
theorem c7_witness :
    ping_handler (register_ping c5_row 0) 100 true
      = (register_ping c5_row 0, .ping_rejected 100) ∧
    ping_handler (register_ping c5_row 0) 201 true
      = (register_ping (register_ping c5_row 0) 201, .ping_sent) :=
  ⟨c7_ping_throttle.1 (register_ping c5_row 0) 100 true 0 rfl (by decide),
   c7_ping_throttle.2.1 (register_ping c5_row 0) 201 0 user_a rfl (by decide) rfl⟩

/-- Counterexample to C7 as stated: on the finished machine whose last
owner is user_a, the panel shown to user_a HERSELF carries the active
ping button, and a ping by that viewer goes through (the handler never
checks the actor) — "allowed only by a non-owner viewer" fails. -/
theorem c7_counterexample :
    c5_row.status = "Finished" ∧ c5_row.last_user = some user_a ∧
    show_machine_control_panel [c5_row] "9_washer_1" 300 user_a.id
      = .idle ⟨some (.active "9_washer_1"), true⟩ ∧
    (ping_handler c5_row 300 true).2 = .ping_sent ∧
    (ping_handler c5_row 300 true).1 = register_ping c5_row 300 := by
  refine ⟨?_, ?_, ?_, ?_, ?_⟩ <;> decide

/-- A matching complaint inside the rolling hour forces the rate-limit
check to fail. -/
theorem can_submit_complaint_false (uid : Nat) (mid : String) (now : Int)
    (log : List Complaint) (c : Complaint) (hc : c ∈ log) (h1 : c.user_id = uid)
    (h2 : c.machine_id = mid) (h3 : now - 3600 ≤ c.created_at) :
    can_submit_complaint uid mid now log = false := by
  unfold can_submit_complaint
  have hmem : c ∈ log.filter (fun c =>
      c.user_id == uid && c.machine_id == mid && decide (now - 3600 ≤ c.created_at)) :=
    List.mem_filter.mpr ⟨hc, by simp [h1, h2, h3]⟩
  simp only [beq_eq_false_iff_ne, ne_eq, List.length_eq_zero]
  exact List.ne_nil_of_mem hmem

/-- With every matching complaint older than the rolling hour, the
rate-limit check passes. -/
theorem can_submit_complaint_true (uid : Nat) (mid : String) (now : Int)
    (log : List Complaint)
    (h : ∀ c ∈ log, c.user_id = uid → c.machine_id = mid → c.created_at < now - 3600) :
    can_submit_complaint uid mid now log = true := by
  unfold can_submit_complaint
  simp only [beq_iff_eq, List.length_eq_zero, List.filter_eq_nil_iff]
  intro c hc
  simp only [Bool.and_eq_true, beq_iff_eq, decide_eq_true_eq, not_and]
  intro h12
  have := h c hc h12.1 h12.2
  omega

/-- C8: complaint submission is throttled per (actor, machine) pair to at
most one per rolling hour — an attempt while a matching complaint less
than an hour old exists is rejected and appends no record, while an
attempt with every previous matching complaint strictly older than one
hour succeeds and appends the record stamped `now`. -/
theorem c8_complaint_throttle :
    (∀ (reg : List MachineState) (uid : Nat) (mid : String) (now : Int)
       (log : List Complaint) (c : Complaint),
      c ∈ log → c.user_id = uid → c.machine_id = mid → now - 3600 ≤ c.created_at →
      complain_confirm_handler reg uid mid now log = (log, .complaint_rejected)) ∧
    (∀ (reg : List MachineState) (uid : Nat) (mid : String) (now : Int)
       (log : List Complaint),
      (∀ c ∈ log, c.user_id = uid → c.machine_id = mid → c.created_at < now - 3600) →
      ∃ rep, complain_confirm_handler reg uid mid now log
        = (⟨uid, mid, rep, now⟩ :: log, .complaint_logged)) := by
  constructor
  · intro reg uid mid now log c hc h1 h2 h3
    unfold complain_confirm_handler
    rw [if_neg (by rw [can_submit_complaint_false uid mid now log c hc h1 h2 h3]; decide)]
  · intro reg uid mid now log h
    unfold complain_confirm_handler
    rw [if_pos (by rw [can_submit_complaint_true uid mid now log h])]
    exact ⟨_, rfl⟩

/-- Witness for C8 at concrete inputs: user 7's complaint on the machine
at t = 0 succeeds on an empty log; a duplicate at t = 1800 (30 min) is
rejected without a record; at t = 3660 (61 min) a new complaint
succeeds. -/
theorem c8_witness :
    (∃ rep, complain_confirm_handler [] 7 "9_washer_1" 0 []
      = ([⟨7, "9_washer_1", rep, 0⟩], .complaint_logged)) ∧
    complain_confirm_handler [] 7 "9_washer_1" 1800 [⟨7, "9_washer_1", "Available", 0⟩]
      = ([⟨7, "9_washer_1", "Available", 0⟩], .complaint_rejected) ∧
    (∃ rep, complain_confirm_handler [] 7 "9_washer_1" 3660 [⟨7, "9_washer_1", "Available", 0⟩]
      = (⟨7, "9_washer_1", rep, 3660⟩ :: [⟨7, "9_washer_1", "Available", 0⟩],
         .complaint_logged)) :=
  ⟨c8_complaint_throttle.2 [] 7 "9_washer_1" 0 [] (by simp),
   c8_complaint_throttle.1 [] 7 "9_washer_1" 1800 [⟨7, "9_washer_1", "Available", 0⟩]
     ⟨7, "9_washer_1", "Available", 0⟩ (by simp) rfl rfl (by decide),
   c8_complaint_throttle.2 [] 7 "9_washer_1" 3660 [⟨7, "9_washer_1", "Available", 0⟩]
     (by intro c hc; simp only [List.mem_singleton] at hc; subst hc; intro _ _; decide)⟩

/-- C9 (amended): a second Collect on the same machine leaves the state
exactly as the first left it (the collect write is idempotent) and
returns the same success acknowledgement — it is accepted as a no-op, not
Rejected. -/
theorem c9_collect_idempotent (r : MachineState) (actor actor2 : Nat) :
    collect_handler ((collect_handler r actor).1) actor2
      = ((collect_handler r actor).1, .collected r.id) := rfl

/-- Counterexample to C9 as stated: collecting the finished machine twice
— the second call again reports success (`collected`, the handler's only
outcome) rather than a rejection; the state is unchanged by the second
call. -/
theorem c9_counterexample :
    c5_row.status = "Finished" ∧
    (collect_handler ((collect_handler c5_row 1).1) 1).2 = .collected "9_washer_1" ∧
    (collect_handler ((collect_handler c5_row 1).1) 1).1 = (collect_handler c5_row 1).1 := by
  refine ⟨?_, ?_, ?_⟩ <;> decide

/-- C10: when a ping passes the cooldown check but the notification fails
to deliver, `lastPingAt` is not stamped — the row is returned unchanged —
so any subsequent attempt (same instant or later) still passes the
cooldown and a delivered one succeeds; only a delivered ping stamps
`lastPingAt := now` and starts the 200 s window, inside which attempts
are rejected. -/
theorem c10_failed_ping_no_cooldown (r : MachineState) (now : Int) (u : UserInfo)
    (hcool : ∀ t, r.last_ping = some t → 200 ≤ now - t)
    (hlu : r.last_user = some u) :
    ping_handler r now false = (r, .ping_failed) ∧
    (∀ now2, now ≤ now2 → ping_handler r now2 true = (register_ping r now2, .ping_sent)) ∧
    ping_handler r now true = (register_ping r now, .ping_sent) ∧
    (∀ k : Int, 0 ≤ k → k < 200 →
      (ping_handler (register_ping r now) (now + k) true).2 = .ping_rejected (200 - k)) := by
  have hsend : ∀ (now2 : Int) (ok : Bool), now ≤ now2 →
      ping_handler r now2 ok = ping_send r now2 ok := by
    intro now2 ok hle
    unfold ping_handler
    cases hp : r.last_ping with
    | none =>
      rw [show (parse_machine r now2).last_ping = r.last_ping from rfl, hp]
    | some t =>
      rw [show (parse_machine r now2).last_ping = r.last_ping from rfl, hp]
      dsimp only
      rw [if_neg (show ¬ now2 - t < 200 by have := hcool t hp; omega)]
  have hsend_eq : ∀ (now2 : Int) (ok : Bool), ping_send r now2 ok
      = if ok then (register_ping r now2, .ping_sent) else (r, .ping_failed) := by
    intro now2 ok
    unfold ping_send
    rw [show (parse_machine r now2).last_user = r.last_user from rfl, hlu]
  refine ⟨?_, ?_, ?_, ?_⟩
  · rw [hsend now false le_rfl, hsend_eq]; rfl
  · intro now2 hle
    rw [hsend now2 true hle, hsend_eq]; rfl
  · rw [hsend now true le_rfl, hsend_eq]; rfl
  · intro k h0 h200
    unfold ping_handler
    rw [show (parse_machine (register_ping r now) (now + k)).last_ping = some now from rfl]
    dsimp only
    rw [if_pos (show now + k - now < 200 by omega),
        show now + k - now = k by omega]

/-- Witness for C10 at a concrete input: on the finished machine with no
prior ping, a failed delivery leaves the row unchanged, an immediate
retry with successful delivery goes through, and an attempt 100 s after
the successful one is rejected with 100 s remaining. -/
theorem c10_witness :
    ping_handler c5_row 300 false = (c5_row, .ping_failed) ∧
    ping_handler c5_row 300 true = (register_ping c5_row 300, .ping_sent) ∧
    (ping_handler (register_ping c5_row 300) 400 true).2 = .ping_rejected 100 := by
  have h := c10_failed_ping_no_cooldown c5_row 300 user_a
    (by
      intro t ht
      simp [c5_row, c1_row, reset_machine_status, update_machine_status, blank_row] at ht) rfl
  exact ⟨h.1, h.2.2.1, by have := h.2.2.2 100 (by decide) (by decide); simpa using this⟩

end LaundryBot
